import Mathlib

/-!
Verification of the mac-cleaner repository (DoneSpeak/mac-cleaner).

Shallow embedding of the parts of the code the claims are about:

* maccleaner/core/cleaner.py — the Cleaner.clean template method
  (prerequisite check, discovery, dry-run branch, real-run loop,
  final success predicate);
* maccleaner/cleaners/k8s.py  — KubernetesCleaner.clean_item with its
  protected-namespace / protected-name-prefix rules;
* maccleaner/core/utils.py    — get_size and is_unused;
* maccleaner/analyzers/app_analyzer.py — _get_directory_size and the
  per-category size accumulation of _analyze_single_app.

Python exceptions are modelled with Except Unit; calls that the
orchestrator performs on a provider are recorded in an explicit event
trace so that statements of the form "x is never called" are expressible.
-/

deriving instance DecidableEq for Except

namespace MacCleaner

/-! ## Core orchestrator: Cleaner.clean (core/cleaner.py)

A provider supplies the three abstract methods of the Cleaner base class.
Each method's outcome (normal return vs raised exception) is a fixed value
of Except Unit: the orchestrator calls each of check_prerequisites
and find_cleanable_items at most once, and clean_item at most once per
item, so a deterministic outcome per call is faithful. -/

structure Provider (Item : Type) where
  check_prerequisites : Except Unit Bool
  find_cleanable_items : Except Unit (List Item)
  clean_item : Item → Bool → Except Unit Bool

/-- One observable step of a Cleaner.clean run: the calls made on the
provider and the per-item log lines of the dry-run branch. -/
inductive CleanEvent (Item : Type) where
  | prereqCheck : CleanEvent Item
  | discovery : CleanEvent Item
  | itemCall : Item → Bool → CleanEvent Item
  | logWouldClean : Item → CleanEvent Item
deriving DecidableEq

/-- Real-run loop of Cleaner.clean (lines 135-146): per item, call
clean_item(item, dry_run=False); a True return increments success_count;
a False return or a raised exception leaves it unchanged. -/
def successCount {Item : Type} (p : Provider Item) (items : List Item) : Nat :=
  items.foldl
    (fun acc it =>
      match p.clean_item it false with
      | .ok true => acc + 1
      | .ok false => acc
      | .error _ => acc)
    0

/-- Model of Cleaner.clean(days_threshold, dry_run) (core/cleaner.py lines
87-149), returning the boolean result with the trace of events.

Branch by branch:
* check_prerequisites raising or returning False yields False;
* find_cleanable_items raising yields False;
* an empty item list yields True;
* dry_run logs "Would clean" per item and yields True — no clean_item
  call is made on this path;
* otherwise the per-item loop runs and the result is
  success_count > 0 or len(cleanable_items) == 0. -/
def Cleaner.clean {Item : Type} (p : Provider Item) (dry_run : Bool) :
    Bool × List (CleanEvent Item) :=
  match p.check_prerequisites with
  | .error _ => (false, [.prereqCheck])
  | .ok false => (false, [.prereqCheck])
  | .ok true =>
    match p.find_cleanable_items with
    | .error _ => (false, [.prereqCheck, .discovery])
    | .ok items =>
      if items.isEmpty then
        (true, [.prereqCheck, .discovery])
      else if dry_run then
        (true, [.prereqCheck, .discovery] ++ items.map .logWouldClean)
      else
        (decide (successCount p items > 0) || decide (items.length = 0),
         [.prereqCheck, .discovery] ++ items.map (fun it => .itemCall it false))

/-! ## Kubernetes cleaner: KubernetesCleaner.clean_item (cleaners/k8s.py) -/

/-- Fields of a discovered Kubernetes item that clean_item reads:
item["type"], item["namespace"], item["name"].  (The word namespace is a
Lean keyword, hence the field name ns.) -/
structure K8sItem where
  type : String
  ns : String
  name : String
deriving DecidableEq

/-- Model of self.protected_namespaces (k8s.py lines 29-33). -/
def protected_namespaces : List String :=
  ["kube-system", "kube-public", "kube-node-lease",
   "cert-manager", "istio-system", "monitoring",
   "ingress-nginx", "default"]

/-- Model of self.protected_prefixes (k8s.py lines 34-37). -/
def protected_prefixes : List String :=
  ["kube-", "calico-", "istio-", "cert-manager-",
   "prometheus-", "grafana-", "default-token-"]

/-- Dispatch of k8s.py lines 227-241: the kubectl delete command for a
known resource type, none for an unknown one. -/
def deleteCommand (item : K8sItem) : Option String :=
  if item.type = "pod" then
    some ("kubectl delete pod " ++ item.name ++ " -n " ++ item.ns ++ " --grace-period=30")
  else if item.type = "replicaset" then
    some ("kubectl delete rs " ++ item.name ++ " -n " ++ item.ns ++ " --grace-period=30")
  else if item.type = "configmap" then
    some ("kubectl delete configmap " ++ item.name ++ " -n " ++ item.ns)
  else if item.type = "secret" then
    some ("kubectl delete secret " ++ item.name ++ " -n " ++ item.ns)
  else
    none

/-- Model of Python str.startswith, at the character-list level so that it
stays kernel-computable. -/
def startswith (s pre : String) : Bool := pre.data.isPrefixOf s.data

/-- Model of KubernetesCleaner.clean_item (k8s.py lines 196-249),
parameterised by the outcome of self._run_kubectl (run_command returns the
output string or None on failure).  The second component of the result is
the list of kubectl delete commands actually issued.

Order of checks, as in the source: protected namespace, then protected
name prefixes (name.startswith), then the dry_run early return, then the
type dispatch, then the kubectl call. -/
def k8sCleanItem (kubectl : String → Option String) (item : K8sItem)
    (dry_run : Bool) : Bool × List String :=
  if item.ns ∈ protected_namespaces then
    (false, [])
  else if protected_prefixes.any (fun pre => startswith item.name pre) then
    (false, [])
  else if dry_run then
    (true, [])
  else
    match deleteCommand item with
    | none => (false, [])
    | some cmd =>
      match kubectl cmd with
      | none => (false, [cmd])
      | some _ => (true, [cmd])

/-! ## Filesystem model for the size scanner

A path is modelled by the node it resolves to.  A regular file carries its
byte length and two separate outcome flags: statOk is the outcome of the
check-time stat (os.path.isfile / os.path.exists) and getOk is the outcome
of the stat performed later by os.path.getsize on the same file.  Keeping
the two apart makes the race the spec mentions representable: statOk true
with getOk false is exactly "the check succeeded, then getsize raised"
(the file vanished or became unreadable in between).  A directory carries
a flag saying whether it can be listed. -/

inductive FSNode where
  | file (size : Nat) (statOk : Bool) (getOk : Bool)
  | dir (listOk : Bool) (children : List FSNode)

/-- Model of os.path.isfile: False for directories and whenever the
check-time stat fails. -/
def osIsfile : FSNode → Bool
  | .file _ ok _ => ok
  | .dir _ _ => false

/-- Model of os.path.exists: False whenever the check-time stat fails. -/
def osPathExists : FSNode → Bool
  | .file _ ok _ => ok
  | .dir _ _ => true

/-- Model of os.path.getsize on a regular file: the byte length, or a
raised OSError when its own stat fails.  (The code under scrutiny never
calls it on a directory; that case is modelled as an error.) -/
def osGetsize : FSNode → Except Unit Nat
  | .file s _ gok => if gok then .ok s else .error ()
  | .dir _ _ => .error ()

/-- File entries (filenames) that os.walk reports for one listed
directory: the non-directory children, as (st_size, statOk, getOk)
triples.  os.listdir does not stat, so files with failing stat are still
listed. -/
def fileEntries : List FSNode → List (Nat × Bool × Bool)
  | [] => []
  | .file s ok gok :: rest => (s, ok, gok) :: fileEntries rest
  | .dir _ _ :: rest => fileEntries rest

mutual

/-- All file entries reached by os.walk(path) in reported order: for a
listable directory, its own files first, then the subtrees of its
subdirectories.  os.walk with the default onerror=None reports nothing
for a directory whose listdir fails, and walking a non-directory path
yields nothing. -/
def walkFiles : FSNode → List (Nat × Bool × Bool)
  | .file _ _ _ => []
  | .dir false _ => []
  | .dir true cs => fileEntries cs ++ walkSubdirs cs

def walkSubdirs : List FSNode → List (Nat × Bool × Bool)
  | [] => []
  | .file _ _ _ :: rest => walkSubdirs rest
  | .dir lk cs :: rest => walkFiles (.dir lk cs) ++ walkSubdirs rest

end

/-- Model of os.path.exists(fp) for a walked file entry (check-time
stat). -/
def entryExists (e : Nat × Bool × Bool) : Bool := e.2.1

/-- Model of os.path.getsize(fp) for a walked file entry (its own,
possibly later, stat). -/
def entryGetsize (e : Nat × Bool × Bool) : Except Unit Nat :=
  if e.2.2 then .ok e.1 else .error ()

/-- Model of get_size (core/utils.py lines 86-106).  A regular file's size
is returned directly — with no try around the getsize call (line 97);
otherwise the code sums os.path.getsize(fp) over all walked files,
guarding each only with os.path.exists(fp) and again with no try around
getsize (lines 103-104).  Raised exceptions propagate (Except). -/
def get_size (n : FSNode) : Except Unit Nat :=
  if osIsfile n then osGetsize n
  else
    (walkFiles n).foldlM
      (fun acc e =>
        if entryExists e then do
          let s ← entryGetsize e
          pure (acc + s)
        else
          pure acc)
      0

/-- Model of AppDiskAnalyzer._get_directory_size (analyzers/app_analyzer.py
lines 710-759).  Here none stands for a path that does not resolve at all.
The code returns 0 for a missing path, wraps the file getsize in
try/except returning 0 (lines 727-733), and in the walk loop swallows
per-entry getsize errors (lines 746-751, try/except: pass) with no exists
pre-check. -/
def getDirectorySize : Option FSNode → Nat
  | none => 0
  | some n =>
    if !osPathExists n then 0
    else if osIsfile n then
      match osGetsize n with
      | .ok s => s
      | .error _ => 0
    else
      (walkFiles n).foldl
        (fun acc e =>
          match entryGetsize e with
          | .ok s => acc + s
          | .error _ => acc)
        0

mutual

/-- Absence of check/getsize races below a node: every file whose
check-time stat succeeds also has a succeeding getsize-time stat. -/
def raceFree : FSNode → Bool
  | .file _ ok gok => !ok || gok
  | .dir _ cs => raceFreeList cs

def raceFreeList : List FSNode → Bool
  | [] => true
  | c :: rest => raceFree c && raceFreeList rest

end

mutual

/-- Size the specification ascribes to a path for the race-free runs of
utils.get_size: a file contributes its byte length, or 0 when its
check-time stat fails; an unlistable directory contributes 0; a listable
directory contributes the sum over its children.  This definition follows
the spec text and is compared against the walk-based implementation. -/
def sizeSpec : FSNode → Nat
  | .file s ok _ => if ok then s else 0
  | .dir false _ => 0
  | .dir true cs => sizeSpecList cs

def sizeSpecList : List FSNode → Nat
  | [] => 0
  | c :: rest => sizeSpec c + sizeSpecList rest

end

mutual

/-- Recursive walk sum the spec ascribes to a directory for
_get_directory_size: an unlistable directory contributes 0, a walked file
contributes its byte length when its getsize succeeds and 0 otherwise
(the per-entry error is swallowed). -/
def walkSpec : FSNode → Nat
  | .file _ _ _ => 0
  | .dir false _ => 0
  | .dir true cs => walkSpecList cs

def walkSpecList : List FSNode → Nat
  | [] => 0
  | .file s _ gok :: rest => (if gok then s else 0) + walkSpecList rest
  | .dir lk cs :: rest => walkSpec (.dir lk cs) + walkSpecList rest

end

/-- Value the spec ascribes to _get_directory_size on every input, races
included: 0 for a missing path, a file's byte length guarded by both its
check-time stat and its getsize (each failure giving 0), and the walk sum
for a directory. -/
def anaSpec : Option FSNode → Nat
  | none => 0
  | some (.file s ok gok) => if ok then (if gok then s else 0) else 0
  | some (.dir lk cs) => walkSpec (.dir lk cs)

/-- Contribution of a list of walked file entries as utils.get_size sums
them on a race-free run: entries passing the exists check count their
length, the rest count 0. -/
def entrySum : List (Nat × Bool × Bool) → Nat
  | [] => 0
  | e :: rest => (if e.2.1 then e.1 else 0) + entrySum rest

/-- Contribution of a list of walked file entries as _get_directory_size
sums them: entries whose getsize succeeds count their length, the rest
count 0. -/
def anaEntrySum : List (Nat × Bool × Bool) → Nat
  | [] => 0
  | e :: rest => (if e.2.2 then e.1 else 0) + anaEntrySum rest

/-! ## Age classifier: is_unused (core/utils.py lines 58-83)

Timestamps are modelled as integer epoch seconds; datetime.now() is the
parameter now and timedelta(days=d) is d * 86400 seconds. -/

/-- Three timestamps reported by os.stat. -/
structure StatInfo where
  st_atime : Int
  st_mtime : Int
  st_ctime : Int

/-- Model of is_unused(path, days_threshold): compare the most recent of
the three stat times against now - timedelta(days=days_threshold); a
failing stat yields False. -/
def is_unused (st : Except Unit StatInfo) (now : Int) (days_threshold : Nat) : Bool :=
  match st with
  | .error _ => false
  | .ok info =>
    let last_access_time := max info.st_atime (max info.st_mtime info.st_ctime)
    let threshold_date := now - (days_threshold : Int) * 86400
    decide (last_access_time < threshold_date)

/-! ## App analyzer: per-category accumulation of _analyze_single_app
(analyzers/app_analyzer.py lines 409-497 and the finder helpers)

The filesystem probes the finder helpers perform are the inputs of the
model: an Option Nat is "the path exists and _get_directory_size (resp.
os.path.getsize) returns this many bytes" vs "the path does not exist"
(for the plist and crash-log files, none instead stands for a getsize
call that raised and was skipped). -/

structure AppProbes where
  /-- Value of _get_directory_size(app_path), already 0 if that raised
  (lines 437-442). -/
  appBundleSize : Nat
  /-- Probe of the Application Support directory named by the bundle id. -/
  support : Option Nat
  /-- Probe of the Application Support directory named by the app name. -/
  altSupport : Option Nat
  /-- Probe of the Caches directory named by the bundle id. -/
  cache : Option Nat
  /-- Probe of the Caches directory named by the app name. -/
  altCache : Option Nat
  /-- Outcome of the unguarded os.listdir(self.caches_dir) at
  app_analyzer.py:550; false means it raises. -/
  cachesListOk : Bool
  /-- Sizes of the cache directories found by that listdir whose names
  extend the bundle id. -/
  cacheExtra : List Nat
  /-- Outcome of the unguarded os.listdir(self.preferences_dir) at
  app_analyzer.py:581; false means it raises. -/
  prefListOk : Bool
  /-- Result of getsize for each discovered plist; none means the call
  raised and the file was skipped. -/
  prefFiles : List (Option Nat)
  /-- Probe of the Logs directory named by the bundle id. -/
  logs : Option Nat
  /-- Probe of the Logs directory named by the app name. -/
  altLogs : Option Nat
  crashDirExists : Bool
  /-- Outcome of the exists-guarded but otherwise unguarded
  os.listdir(crash_logs_dir) at app_analyzer.py:631; false means it
  raises (only reachable when the directory exists). -/
  crashListOk : Bool
  /-- Result of getsize for each crash report matching the app name; none
  means the call raised and the file was skipped. -/
  crashFiles : List (Option Nat)
  containersDirExists : Bool
  /-- Outcome of the exists-guarded but otherwise unguarded
  os.listdir(self.containers_dir) at app_analyzer.py:675; false means it
  raises (only reachable when the directory exists). -/
  containersListOk : Bool
  /-- Probe of the container directory named by the bundle id. -/
  container : Option Nat
  /-- Sizes of the other container directories whose names extend the
  bundle id. -/
  containerExtra : List Nat
  savedStateDirExists : Bool
  /-- Probe of the saved-state directory derived from the bundle id. -/
  savedState : Option Nat

/-- Part of the mutable result dict the claims are about: the sizes
mapping in insertion order and the running total_size. -/
structure AppResult where
  sizes : List (String × Nat)
  total_size : Nat

/-- Effect of the statement pair result["sizes"][k] = size and
result["total_size"] += size. -/
def addCategory (r : AppResult) (k : String) (s : Nat) : AppResult :=
  { sizes := r.sizes ++ [(k, s)], total_size := r.total_size + s }

/-- Contribution of an optional location (absent contributes nothing). -/
def optVal : Option Nat → Nat
  | some s => s
  | none => 0

/-- Total of a list of per-file getsize outcomes where raising entries
were skipped by the per-file try/except. -/
def fileSum (files : List (Option Nat)) : Nat := (files.map optVal).sum

/-- Key string of the support category. -/
def supportKey : String := "support"

/-- Key string of the cache category. -/
def cacheKey : String := "cache"

/-- Key string of the preferences category. -/
def preferencesKey : String := "preferences"

/-- Key string of the crash-reports category. -/
def crashesKey : String := "crashes"

/-- Key string of the logs category. -/
def logsKey : String := "logs"

/-- Key string of the containers category. -/
def containersKey : String := "containers"

/-- Key string of the saved-state category. -/
def savedStateKey : String := "saved_state"

/-- Key string of the application-bundle category. -/
def appKey : String := "app"

/-- Model of _find_app_support_files (lines 499-522): record the support
category when the bundle-id path exists, else when the name path exists,
else nothing — recorded even when the measured size is 0. -/
def find_app_support_files (sup alt : Option Nat) (r : AppResult) : AppResult :=
  match sup with
  | some s => addCategory r supportKey s
  | none =>
    match alt with
    | some s => addCategory r supportKey s
    | none => r

/-- Value of total_cache_size accumulated by _find_cache_files
(lines 536-556). -/
def cacheTotal (cache altCache : Option Nat) (extra : List Nat) : Nat :=
  optVal cache + optVal altCache + extra.sum

/-! The finders from _find_cache_files on can raise (their unguarded
os.listdir calls).  Each of them is modelled in Except AppResult
AppResult: the ok payload is the updated result dict, the error payload
is the result dict at the moment of the raise.  In each finder every
recording statement comes after its raise point in the source, so a
raising finder leaves the dict unchanged and the error payload is the
finder's input. -/

/-- Model of _find_cache_files (lines 524-562): the listdir at line 550
raises before anything is recorded (recording happens at lines 558-562);
on completion the cache category is recorded only when the accumulated
size is positive. -/
def find_cache_files (cache altCache : Option Nat) (listOk : Bool)
    (extra : List Nat) (r : AppResult) : Except AppResult AppResult :=
  if !listOk then .error r
  else
    let total_cache_size := cacheTotal cache altCache extra
    .ok (if total_cache_size > 0 then addCategory r cacheKey total_cache_size else r)

/-- Model of _find_preferences (lines 564-598): the listdir at line 581
raises before anything is recorded (recording happens at lines 594-598);
on completion the preferences category is recorded only when the
accumulated plist size is positive. -/
def find_preferences (files : List (Option Nat)) (listOk : Bool)
    (r : AppResult) : Except AppResult AppResult :=
  if !listOk then .error r
  else
    let total_pref_size := fileSum files
    .ok (if total_pref_size > 0 then addCategory r preferencesKey total_pref_size else r)

/-- Lines 626-645 of _find_logs: the crash-report block.  When the
DiagnosticReports directory exists, its listdir (line 631) can raise —
before the crashes category is recorded at lines 641-645; on completion
the crashes category is recorded only when the accumulated size is
positive. -/
def crashStep (crashDirExists listOk : Bool) (crashFiles : List (Option Nat))
    (r : AppResult) : Except AppResult AppResult :=
  if crashDirExists then
    if !listOk then .error r
    else
      let crash_size := fileSum crashFiles
      .ok (if crash_size > 0 then addCategory r crashesKey crash_size else r)
  else .ok r

/-- Model of _find_logs (lines 600-651): the logs total is computed from
exists-guarded probes, then the crash-report block runs (and can raise,
skipping the logs recording at lines 647-651 too), then logs is recorded
only when positive. -/
def find_logs (logs altLogs : Option Nat) (crashDirExists crashListOk : Bool)
    (crashFiles : List (Option Nat)) (r : AppResult) : Except AppResult AppResult :=
  let total_logs_size := optVal logs + optVal altLogs
  match crashStep crashDirExists crashListOk crashFiles r with
  | .error rr => .error rr
  | .ok r1 => .ok (if total_logs_size > 0 then addCategory r1 logsKey total_logs_size else r1)

/-- Model of _find_containers (lines 653-687): nothing when the Containers
directory is missing; otherwise its listdir (line 675) can raise before
the recording at lines 683-687; on completion the containers category is
recorded only when positive. -/
def find_containers (dirExists listOk : Bool) (container : Option Nat)
    (extra : List Nat) (r : AppResult) : Except AppResult AppResult :=
  if !dirExists then .ok r
  else if !listOk then .error r
  else
    let total_container_size := optVal container + extra.sum
    .ok (if total_container_size > 0 then addCategory r containersKey total_container_size else r)

/-- Model of _find_saved_state (lines 689-708): record the saved-state
category whenever the savedState path exists, even at size 0. -/
def find_saved_state (dirExists : Bool) (savedState : Option Nat)
    (r : AppResult) : AppResult :=
  if !dirExists then r
  else
    match savedState with
    | some s => addCategory r savedStateKey s
    | none => r

/-- Python's round on a value with an exact representation: round half to
even.  (The source rounds a float; the model computes on rationals.) -/
def pyRoundHalfEven (q : Rat) : Int :=
  let f := q.floor
  let frac := q - (f : Rat)
  if frac < 1/2 then f
  else if 1/2 < frac then f + 1
  else if f % 2 = 0 then f else f + 1

/-- Model of round(x, 1). -/
def pyRound1 (q : Rat) : Rat := (pyRoundHalfEven (q * 10) : Rat) / 10

/-- Parts of the per-application report dict the claims are about. -/
structure AppReport where
  sizes : List (String × Nat)
  total_size : Nat
  percentages : Option (List (String × Rat))

/-- Dispatch of the try/except around the finder chain: a finder that
completed hands its result to the rest of the chain, a finder that raised
ends the chain with the result dict at the raise (the except at
app_analyzer.py:481 swallows the exception). -/
def exceptStep (x : Except AppResult AppResult) (rest : AppResult → AppResult) : AppResult :=
  match x with
  | .error rr => rr
  | .ok r => rest r

/-- Lines 444-484 of _analyze_single_app: start from the app category (the
bundle's own size) and run the six finder helpers in source order inside
one try block.  A raising finder aborts the remaining finders and the
except at line 481 keeps the result dict as recorded so far. -/
def accumulateSizes (p : AppProbes) : AppResult :=
  let r0 : AppResult := { sizes := [(appKey, p.appBundleSize)], total_size := p.appBundleSize }
  let r1 := find_app_support_files p.support p.altSupport r0
  exceptStep (find_cache_files p.cache p.altCache p.cachesListOk p.cacheExtra r1) (fun r2 =>
    exceptStep (find_preferences p.prefFiles p.prefListOk r2) (fun r3 =>
      exceptStep (find_logs p.logs p.altLogs p.crashDirExists p.crashListOk p.crashFiles r3)
        (fun r4 =>
          exceptStep (find_containers p.containersDirExists p.containersListOk p.container
              p.containerExtra r4) (fun r5 =>
            find_saved_state p.savedStateDirExists p.savedState r5))))

/-- Model of _analyze_single_app (lines 409-497): accumulate the category
sizes, then compute percentages only when total_size > 0 (lines
489-494). -/
def analyzeSingleApp (p : AppProbes) : AppReport :=
  let r6 := accumulateSizes p
  { sizes := r6.sizes
    total_size := r6.total_size
    percentages :=
      if r6.total_size > 0 then
        some (r6.sizes.map
          (fun ks => (ks.1, pyRound1 ((ks.2 : Rat) / (r6.total_size : Rat) * 100))))
      else none }

/-! ## Concrete instances used by witnesses and counterexamples -/

/-- Provider with 3 discovered items of which cleaning succeeds for items
1 and 3 and raises for item 2. -/
def exProviderTwoOk : Provider Nat :=
  { check_prerequisites := .ok true
    find_cleanable_items := .ok [1, 2, 3]
    clean_item := fun n _ => if n = 2 then .error () else .ok true }

/-- Provider with 2 discovered items for which cleaning fails (item 1) or
raises (item 2). -/
def exProviderAllFail : Provider Nat :=
  { check_prerequisites := .ok true
    find_cleanable_items := .ok [1, 2]
    clean_item := fun n _ => if n = 1 then .ok false else .error () }

/-- Provider that discovers item 7 and whose clean_item always raises. -/
def exProviderRaisingItem : Provider Nat :=
  { check_prerequisites := .ok true
    find_cleanable_items := .ok [7]
    clean_item := fun _ _ => .error () }

/-- Provider whose prerequisite check returns False. -/
def exProviderNoPrereq : Provider Nat :=
  { check_prerequisites := .ok false
    find_cleanable_items := .ok [1]
    clean_item := fun _ _ => .ok true }

/-- Provider whose discovery raises. -/
def exProviderRaisingFind : Provider Nat :=
  { check_prerequisites := .ok true
    find_cleanable_items := .error ()
    clean_item := fun _ _ => .ok true }

/-- Provider whose discovery returns the empty list. -/
def exProviderEmptyFind : Provider Nat :=
  { check_prerequisites := .ok true
    find_cleanable_items := .ok []
    clean_item := fun _ _ => .ok true }

/-- Probe set of an application bundle of 5 bytes whose Application
Support directory exists but is empty, with no other associated data and
no raising listdir. -/
def exProbesSupportZero : AppProbes :=
  { appBundleSize := 5
    support := some 0
    altSupport := none
    cache := none
    altCache := none
    cachesListOk := true
    cacheExtra := []
    prefListOk := true
    prefFiles := []
    logs := none
    altLogs := none
    crashDirExists := false
    crashListOk := true
    crashFiles := []
    containersDirExists := false
    containersListOk := true
    container := none
    containerExtra := []
    savedStateDirExists := false
    savedState := none }

/-- Probe set where the listdir of the Caches directory raises while the
preferences probes have positive size: all categories after support are
dropped from the report despite those sizes. -/
def exProbesCacheAbort : AppProbes :=
  { appBundleSize := 5
    support := none
    altSupport := none
    cache := some 7
    altCache := none
    cachesListOk := false
    cacheExtra := []
    prefListOk := true
    prefFiles := [some 9]
    logs := some 4
    altLogs := none
    crashDirExists := false
    crashListOk := true
    crashFiles := []
    containersDirExists := false
    containersListOk := true
    container := none
    containerExtra := []
    savedStateDirExists := true
    savedState := some 2 }

/-- Race-free directory of two stat-able files of 3 and 0 bytes used by
the C7 witness. -/
def exDirRaceFree : FSNode :=
  FSNode.dir true [FSNode.file 3 true true, FSNode.file 0 false false]

/-! # Theorems -/

/-! ## General lemmas about the embeddings -/

theorem except_pure_eq_ok {ε α : Type} (a : α) : (pure a : Except ε α) = .ok a := rfl

theorem entrySum_append (a b : List (Nat × Bool × Bool)) :
    entrySum (a ++ b) = entrySum a + entrySum b := by
  induction a with
  | nil => simp [entrySum]
  | cons e rest ih => simp [entrySum, ih, Nat.add_assoc]

theorem anaEntrySum_append (a b : List (Nat × Bool × Bool)) :
    anaEntrySum (a ++ b) = anaEntrySum a + anaEntrySum b := by
  induction a with
  | nil => simp [anaEntrySum]
  | cons e rest ih => simp [anaEntrySum, ih, Nat.add_assoc]

mutual

theorem entrySum_walkFiles_dir (lk : Bool) (cs : List FSNode) :
    entrySum (walkFiles (.dir lk cs)) = sizeSpec (.dir lk cs) := by
  cases lk with
  | false => simp [walkFiles, sizeSpec, entrySum]
  | true =>
    rw [walkFiles, sizeSpec, entrySum_append]
    exact entrySum_walk_parts cs

theorem entrySum_walk_parts (cs : List FSNode) :
    entrySum (fileEntries cs) + entrySum (walkSubdirs cs) = sizeSpecList cs := by
  match cs with
  | [] => simp [fileEntries, walkSubdirs, entrySum, sizeSpecList]
  | .file s ok gok :: rest =>
    have ih := entrySum_walk_parts rest
    simp only [fileEntries, walkSubdirs, entrySum, sizeSpecList, sizeSpec]
    omega
  | .dir lk cs' :: rest =>
    have ih := entrySum_walk_parts rest
    have hd := entrySum_walkFiles_dir lk cs'
    simp only [fileEntries, walkSubdirs, sizeSpecList, entrySum_append, hd]
    omega

end

mutual

theorem anaEntrySum_walkFiles_dir (lk : Bool) (cs : List FSNode) :
    anaEntrySum (walkFiles (.dir lk cs)) = walkSpec (.dir lk cs) := by
  cases lk with
  | false => simp [walkFiles, walkSpec, anaEntrySum]
  | true =>
    rw [walkFiles, walkSpec, anaEntrySum_append]
    exact anaEntrySum_walk_parts cs

theorem anaEntrySum_walk_parts (cs : List FSNode) :
    anaEntrySum (fileEntries cs) + anaEntrySum (walkSubdirs cs) = walkSpecList cs := by
  match cs with
  | [] => simp [fileEntries, walkSubdirs, anaEntrySum, walkSpecList]
  | .file s ok gok :: rest =>
    have ih := anaEntrySum_walk_parts rest
    simp only [fileEntries, walkSubdirs, anaEntrySum, walkSpecList]
    omega
  | .dir lk cs' :: rest =>
    have ih := anaEntrySum_walk_parts rest
    have hd := anaEntrySum_walkFiles_dir lk cs'
    simp only [fileEntries, walkSubdirs, walkSpecList, anaEntrySum_append, hd]
    omega

end

theorem get_size_fold (es : List (Nat × Bool × Bool)) :
    ∀ (acc : Nat), (∀ e ∈ es, e.2.1 = true → e.2.2 = true) →
    (es.foldlM
      (fun acc e =>
        if entryExists e then do
          let s ← entryGetsize e
          pure (acc + s)
        else
          pure acc)
      acc : Except Unit Nat) = .ok (acc + entrySum es) := by
  induction es with
  | nil => intro acc h; rfl
  | cons e rest ih =>
    intro acc h
    have hr : ∀ x ∈ rest, x.2.1 = true → x.2.2 = true :=
      fun x hx => h x (List.mem_cons_of_mem e hx)
    rcases e with ⟨s, ok, gok⟩
    cases ok with
    | false => simpa [List.foldlM, entryExists, entrySum] using ih acc hr
    | true =>
      have hg : gok = true := h (s, true, gok) (List.mem_cons_self _ _) rfl
      subst hg
      simpa [List.foldlM, entryExists, entryGetsize, entrySum, Nat.add_assoc]
        using ih (acc + s) hr

theorem dir_size_fold (es : List (Nat × Bool × Bool)) (acc : Nat) :
    (es.foldl
      (fun acc e =>
        match entryGetsize e with
        | .ok s => acc + s
        | .error _ => acc)
      acc) = acc + anaEntrySum es := by
  induction es generalizing acc with
  | nil => simp [anaEntrySum]
  | cons e rest ih =>
    rcases e with ⟨s, ok, gok⟩
    cases gok with
    | false => simpa [entryGetsize, anaEntrySum] using ih acc
    | true => simpa [entryGetsize, anaEntrySum, Nat.add_assoc] using ih (acc + s)

theorem fileEntries_raceOk (cs : List FSNode) (h : raceFreeList cs = true) :
    ∀ e ∈ fileEntries cs, e.2.1 = true → e.2.2 = true := by
  induction cs with
  | nil => intro e he; rw [fileEntries] at he; exact absurd he (List.not_mem_nil e)
  | cons c rest ih =>
    rw [raceFreeList, Bool.and_eq_true] at h
    obtain ⟨hc, hrest⟩ := h
    cases c with
    | file s ok gok =>
      intro e he
      rw [fileEntries] at he
      rcases List.mem_cons.mp he with rfl | he
      · intro hok
        rw [raceFree] at hc
        have hok' : ok = true := hok
        rw [hok'] at hc
        simpa using hc
      · exact ih hrest e he
    | dir lk cs' =>
      intro e he
      rw [fileEntries] at he
      exact ih hrest e he

mutual

theorem walkFiles_raceOk (n : FSNode) (h : raceFree n = true) :
    ∀ e ∈ walkFiles n, e.2.1 = true → e.2.2 = true := by
  cases n with
  | file s ok gok =>
    intro e he
    rw [walkFiles] at he
    exact absurd he (List.not_mem_nil e)
  | dir lk cs =>
    cases lk with
    | false =>
      intro e he
      rw [walkFiles] at he
      exact absurd he (List.not_mem_nil e)
    | true =>
      intro e he
      rw [walkFiles] at he
      rw [raceFree] at h
      rcases List.mem_append.mp he with he | he
      · exact fileEntries_raceOk cs h e he
      · exact walkSubdirs_raceOk cs h e he

theorem walkSubdirs_raceOk (cs : List FSNode) (h : raceFreeList cs = true) :
    ∀ e ∈ walkSubdirs cs, e.2.1 = true → e.2.2 = true := by
  match cs with
  | [] =>
    intro e he
    rw [walkSubdirs] at he
    exact absurd he (List.not_mem_nil e)
  | .file s ok gok :: rest =>
    rw [raceFreeList, Bool.and_eq_true] at h
    intro e he
    rw [walkSubdirs] at he
    exact walkSubdirs_raceOk rest h.2 e he
  | .dir lk cs' :: rest =>
    rw [raceFreeList, Bool.and_eq_true] at h
    intro e he
    rw [walkSubdirs] at he
    rcases List.mem_append.mp he with he | he
    · exact walkFiles_raceOk (.dir lk cs') h.1 e he
    · exact walkSubdirs_raceOk rest h.2 e he

end

/-- On a race-free tree, get_size does not raise and computes the spec
size. -/
theorem get_size_raceFree (n : FSNode) (h : raceFree n = true) :
    get_size n = .ok (sizeSpec n) := by
  cases n with
  | file s ok gok =>
    cases ok with
    | false =>
      simp [get_size, osIsfile, walkFiles, sizeSpec, except_pure_eq_ok]
    | true =>
      rw [raceFree] at h
      simp only [Bool.not_true, Bool.false_or] at h
      simp [get_size, osIsfile, osGetsize, sizeSpec, h]
  | dir lk cs =>
    rw [get_size, get_size_fold (walkFiles (.dir lk cs)) 0 (walkFiles_raceOk _ h),
      Nat.zero_add, entrySum_walkFiles_dir]
    simp [osIsfile]

/-- _get_directory_size computes the spec size on every input, races
included, and 0 for a missing path. -/
theorem getDirectorySize_eq (o : Option FSNode) :
    getDirectorySize o = anaSpec o := by
  cases o with
  | none => rfl
  | some n =>
    cases n with
    | file s ok gok =>
      cases ok with
      | false => simp [getDirectorySize, osPathExists, anaSpec]
      | true =>
        cases gok with
        | false => simp [getDirectorySize, osPathExists, osIsfile, osGetsize, anaSpec]
        | true => simp [getDirectorySize, osPathExists, osIsfile, osGetsize, anaSpec]
    | dir lk cs =>
      rw [getDirectorySize, dir_size_fold, Nat.zero_add, anaEntrySum_walkFiles_dir]
      simp [osPathExists, osIsfile, anaSpec]

theorem successCount_eq_countP {Item : Type} (p : Provider Item) (items : List Item) :
    successCount p items =
      items.countP (fun it => decide (p.clean_item it false = Except.ok true)) := by
  suffices h : ∀ (l : List Item) (acc : Nat),
      (l.foldl
        (fun acc it =>
          match p.clean_item it false with
          | .ok true => acc + 1
          | .ok false => acc
          | .error _ => acc)
        acc)
      = acc + l.countP (fun it => decide (p.clean_item it false = Except.ok true)) by
    simpa [successCount] using h items 0
  intro l
  induction l with
  | nil => intro acc; simp
  | cons x xs ih =>
    intro acc
    rw [List.foldl_cons, List.countP_cons]
    cases hx : p.clean_item x false with
    | error e => simp [hx, ih]
    | ok b =>
      cases b with
      | false => simp [hx, ih]
      | true =>
        simp only [hx, ih (acc + 1), decide_eq_true_eq]
        simp
        omega

/-! ## Structural facts about the six analyzer finders

Each finder appends a (possibly empty) block of entries with a known key
to sizes and adds exactly that block's sum to total_size. -/

theorem find_support_parts (sup alt : Option Nat) (r : AppResult) :
    ∃ t, (find_app_support_files sup alt r).sizes = r.sizes ++ t ∧
      (find_app_support_files sup alt r).total_size = r.total_size + (t.map Prod.snd).sum ∧
      (∀ x ∈ t, x.1 = supportKey) ∧
      (t = [] ↔ sup = none ∧ alt = none) := by
  cases sup with
  | some s =>
    refine ⟨[(supportKey, s)], ?_, ?_, ?_, ?_⟩ <;> simp [find_app_support_files, addCategory]
  | none =>
    cases alt with
    | some s =>
      refine ⟨[(supportKey, s)], ?_, ?_, ?_, ?_⟩ <;> simp [find_app_support_files, addCategory]
    | none =>
      refine ⟨[], ?_, ?_, ?_, ?_⟩ <;> simp [find_app_support_files]

theorem exceptStep_error (r : AppResult) (f : AppResult → AppResult) :
    exceptStep (.error r) f = r := rfl

theorem exceptStep_ok (r : AppResult) (f : AppResult → AppResult) :
    exceptStep (.ok r) f = f r := rfl

theorem find_cache_parts (c a : Option Nat) (lk : Bool) (e : List Nat) (r : AppResult) :
    (lk = false ∧ find_cache_files c a lk e r = .error r) ∨
    (lk = true ∧ ∃ t r2, find_cache_files c a lk e r = .ok r2 ∧
      r2.sizes = r.sizes ++ t ∧
      r2.total_size = r.total_size + (t.map Prod.snd).sum ∧
      (∀ x ∈ t, x.1 = cacheKey) ∧
      (t = [] ↔ cacheTotal c a e = 0)) := by
  cases lk with
  | false => exact Or.inl ⟨rfl, rfl⟩
  | true =>
    by_cases h : cacheTotal c a e > 0
    · refine Or.inr ⟨rfl, [(cacheKey, cacheTotal c a e)],
        addCategory r cacheKey (cacheTotal c a e), ?_, ?_, ?_, ?_, ?_⟩
      · simp [find_cache_files, h]
      · simp [addCategory]
      · simp [addCategory]
      · simp
      · exact iff_of_false (by simp) (by omega)
    · refine Or.inr ⟨rfl, [], r, ?_, ?_, ?_, ?_, ?_⟩
      · simp [find_cache_files, h]
      · simp
      · simp
      · simp
      · exact iff_of_true rfl (by omega)

theorem find_pref_parts (files : List (Option Nat)) (lk : Bool) (r : AppResult) :
    (lk = false ∧ find_preferences files lk r = .error r) ∨
    (lk = true ∧ ∃ t r2, find_preferences files lk r = .ok r2 ∧
      r2.sizes = r.sizes ++ t ∧
      r2.total_size = r.total_size + (t.map Prod.snd).sum ∧
      (∀ x ∈ t, x.1 = preferencesKey)) := by
  cases lk with
  | false => exact Or.inl ⟨rfl, rfl⟩
  | true =>
    by_cases h : fileSum files > 0
    · refine Or.inr ⟨rfl, [(preferencesKey, fileSum files)],
        addCategory r preferencesKey (fileSum files), ?_, ?_, ?_, ?_⟩
      · simp [find_preferences, h]
      · simp [addCategory]
      · simp [addCategory]
      · simp
    · refine Or.inr ⟨rfl, [], r, ?_, ?_, ?_, ?_⟩
      · simp [find_preferences, h]
      · simp
      · simp
      · simp

theorem crashStep_parts (cde clk : Bool) (cf : List (Option Nat)) (r : AppResult) :
    (cde = true ∧ clk = false ∧ crashStep cde clk cf r = .error r) ∨
    (∃ t r1, crashStep cde clk cf r = .ok r1 ∧
      r1.sizes = r.sizes ++ t ∧
      r1.total_size = r.total_size + (t.map Prod.snd).sum ∧
      (∀ x ∈ t, x.1 = crashesKey)) := by
  cases cde with
  | false =>
    refine Or.inr ⟨[], r, rfl, ?_, ?_, ?_⟩ <;> simp
  | true =>
    cases clk with
    | false => exact Or.inl ⟨rfl, rfl, rfl⟩
    | true =>
      by_cases h : fileSum cf > 0
      · refine Or.inr ⟨[(crashesKey, fileSum cf)],
          addCategory r crashesKey (fileSum cf), ?_, ?_, ?_, ?_⟩
        · simp [crashStep, h]
        · simp [addCategory]
        · simp [addCategory]
        · simp
      · refine Or.inr ⟨[], r, ?_, ?_, ?_, ?_⟩
        · simp [crashStep, h]
        · simp
        · simp
        · simp

theorem find_logs_parts (lg alg : Option Nat) (cde clk : Bool) (cf : List (Option Nat))
    (r : AppResult) :
    (cde = true ∧ clk = false ∧ find_logs lg alg cde clk cf r = .error r) ∨
    (∃ t r2, find_logs lg alg cde clk cf r = .ok r2 ∧
      r2.sizes = r.sizes ++ t ∧
      r2.total_size = r.total_size + (t.map Prod.snd).sum ∧
      (∀ x ∈ t, x.1 = crashesKey ∨ x.1 = logsKey)) := by
  rcases crashStep_parts cde clk cf r with ⟨hcde, hclk, herr⟩ | ⟨tc, r1, heq, hcs, hct, hck⟩
  · left
    refine ⟨hcde, hclk, ?_⟩
    rw [find_logs, herr]
  · right
    by_cases h : optVal lg + optVal alg > 0
    · refine ⟨tc ++ [(logsKey, optVal lg + optVal alg)],
        addCategory r1 logsKey (optVal lg + optVal alg), ?_, ?_, ?_, ?_⟩
      · rw [find_logs, heq]
        simp [h]
      · simp only [addCategory]
        rw [hcs, List.append_assoc]
      · simp only [addCategory]
        rw [hct]
        simp only [List.map_append, List.sum_append]
        simp
        omega
      · intro x hx
        rcases List.mem_append.mp hx with hx | hx
        · exact Or.inl (hck x hx)
        · simp at hx
          simp [hx]
    · refine ⟨tc, r1, ?_, hcs, hct, fun x hx => Or.inl (hck x hx)⟩
      rw [find_logs, heq]
      simp [h]

theorem find_containers_parts (de lk : Bool) (c : Option Nat) (e : List Nat) (r : AppResult) :
    (de = true ∧ lk = false ∧ find_containers de lk c e r = .error r) ∨
    (∃ t r2, find_containers de lk c e r = .ok r2 ∧
      r2.sizes = r.sizes ++ t ∧
      r2.total_size = r.total_size + (t.map Prod.snd).sum ∧
      (∀ x ∈ t, x.1 = containersKey)) := by
  cases de with
  | false =>
    refine Or.inr ⟨[], r, rfl, ?_, ?_, ?_⟩ <;> simp
  | true =>
    cases lk with
    | false => exact Or.inl ⟨rfl, rfl, rfl⟩
    | true =>
      by_cases h : optVal c + e.sum > 0
      · refine Or.inr ⟨[(containersKey, optVal c + e.sum)],
          addCategory r containersKey (optVal c + e.sum), ?_, ?_, ?_, ?_⟩
        · simp [find_containers, h]
        · simp [addCategory]
        · simp [addCategory]
        · simp
      · refine Or.inr ⟨[], r, ?_, ?_, ?_, ?_⟩
        · simp [find_containers, h]
        · simp
        · simp
        · simp

theorem find_saved_parts (de : Bool) (sv : Option Nat) (r : AppResult) :
    ∃ t, (find_saved_state de sv r).sizes = r.sizes ++ t ∧
      (find_saved_state de sv r).total_size = r.total_size + (t.map Prod.snd).sum ∧
      (∀ x ∈ t, x.1 = savedStateKey) := by
  cases de with
  | false => exact ⟨[], by simp [find_saved_state], by simp [find_saved_state], by simp⟩
  | true =>
    cases sv with
    | some s =>
      refine ⟨[(savedStateKey, s)], ?_, ?_, ?_⟩ <;> simp [find_saved_state, addCategory]
    | none => refine ⟨[], ?_, ?_, ?_⟩ <;> simp [find_saved_state]

/-- Decomposition of the whole accumulation: the final sizes list is the
app entry followed by one block per finder, total_size is the sum of all
blocks, each block's keys are known, the support and cache blocks'
emptiness conditions are known, and a raise of the cache finder's listdir
empties every later block. -/
theorem accumulate_struct (p : AppProbes) :
    ∃ t1 t2 t3 t4 t5 t6 : List (String × Nat),
      (accumulateSizes p).sizes =
        [(appKey, p.appBundleSize)] ++ t1 ++ t2 ++ t3 ++ t4 ++ t5 ++ t6 ∧
      (accumulateSizes p).total_size =
        p.appBundleSize + ((t1 ++ t2 ++ t3 ++ t4 ++ t5 ++ t6).map Prod.snd).sum ∧
      (∀ x ∈ t1, x.1 = supportKey) ∧
      (t1 = [] ↔ p.support = none ∧ p.altSupport = none) ∧
      (∀ x ∈ t2, x.1 = cacheKey) ∧
      (t2 = [] ↔ ¬(p.cachesListOk = true ∧ 0 < cacheTotal p.cache p.altCache p.cacheExtra)) ∧
      (∀ x ∈ t3, x.1 = preferencesKey) ∧
      (∀ x ∈ t4, x.1 = crashesKey ∨ x.1 = logsKey) ∧
      (∀ x ∈ t5, x.1 = containersKey) ∧
      (∀ x ∈ t6, x.1 = savedStateKey) ∧
      (p.cachesListOk = false → t2 = [] ∧ t3 = [] ∧ t4 = [] ∧ t5 = [] ∧ t6 = []) := by
  obtain ⟨t1, e1, g1, k1, n1⟩ :=
    find_support_parts p.support p.altSupport
      ⟨[(appKey, p.appBundleSize)], p.appBundleSize⟩
  rcases find_cache_parts p.cache p.altCache p.cachesListOk p.cacheExtra
      (find_app_support_files p.support p.altSupport
        ⟨[(appKey, p.appBundleSize)], p.appBundleSize⟩) with
    ⟨hlk, herr2⟩ | ⟨hlk, t2, r2, heq2, hs2, ht2, hk2, hn2⟩
  · have hacc : accumulateSizes p =
        find_app_support_files p.support p.altSupport
          ⟨[(appKey, p.appBundleSize)], p.appBundleSize⟩ := by
      rw [accumulateSizes, herr2, exceptStep_error]
    refine ⟨t1, [], [], [], [], [], ?_, ?_, k1, n1, by simp, ?_, by simp, by simp, by simp,
      by simp, fun _ => ⟨rfl, rfl, rfl, rfl, rfl⟩⟩
    · rw [hacc, e1]
      simp
    · rw [hacc, g1]
      simp
    · simp [hlk]
  · rcases find_pref_parts p.prefFiles p.prefListOk r2 with
      ⟨hplk, herr3⟩ | ⟨hplk, t3, r3, heq3, hs3, ht3, hk3⟩
    · have hacc : accumulateSizes p = r2 := by
        simp only [accumulateSizes, heq2, exceptStep_ok, herr3, exceptStep_error]
      refine ⟨t1, t2, [], [], [], [], ?_, ?_, k1, n1, hk2, ?_, by simp, by simp, by simp,
        by simp, ?_⟩
      · rw [hacc, hs2, e1]
        simp
      · rw [hacc, ht2, g1]
        simp only [List.map_append, List.sum_append]
        simp
        omega
      · rw [hn2]
        simp only [hlk, true_and]
        omega
      · intro hfalse
        rw [hfalse] at hlk
        exact absurd hlk (by decide)
    · rcases find_logs_parts p.logs p.altLogs p.crashDirExists p.crashListOk p.crashFiles r3 with
        ⟨hcde, hclk, herr4⟩ | ⟨t4, r4, heq4, hs4, ht4, hk4⟩
      · have hacc : accumulateSizes p = r3 := by
          simp only [accumulateSizes, heq2, exceptStep_ok, heq3, herr4, exceptStep_error]
        refine ⟨t1, t2, t3, [], [], [], ?_, ?_, k1, n1, hk2, ?_, hk3, by simp, by simp,
          by simp, ?_⟩
        · rw [hacc, hs3, hs2, e1]
          simp
        · rw [hacc, ht3, ht2, g1]
          simp only [List.map_append, List.sum_append]
          simp
          omega
        · rw [hn2]
          simp only [hlk, true_and]
          omega
        · intro hfalse
          rw [hfalse] at hlk
          exact absurd hlk (by decide)
      · rcases find_containers_parts p.containersDirExists p.containersListOk p.container
            p.containerExtra r4 with ⟨hde, hcolk, herr5⟩ | ⟨t5, r5, heq5, hs5, ht5, hk5⟩
        · have hacc : accumulateSizes p = r4 := by
            simp only [accumulateSizes, heq2, exceptStep_ok, heq3, heq4, herr5,
              exceptStep_error]
          refine ⟨t1, t2, t3, t4, [], [], ?_, ?_, k1, n1, hk2, ?_, hk3, hk4, by simp,
            by simp, ?_⟩
          · rw [hacc, hs4, hs3, hs2, e1]
            simp
          · rw [hacc, ht4, ht3, ht2, g1]
            simp only [List.map_append, List.sum_append]
            simp
            omega
          · rw [hn2]
            simp only [hlk, true_and]
            omega
          · intro hfalse
            rw [hfalse] at hlk
            exact absurd hlk (by decide)
        · obtain ⟨t6, e6, g6, k6⟩ := find_saved_parts p.savedStateDirExists p.savedState r5
          have hacc : accumulateSizes p =
              find_saved_state p.savedStateDirExists p.savedState r5 := by
            simp only [accumulateSizes, heq2, exceptStep_ok, heq3, heq4, heq5]
          refine ⟨t1, t2, t3, t4, t5, t6, ?_, ?_, k1, n1, hk2, ?_, hk3, hk4, hk5, k6, ?_⟩
          · rw [hacc, e6, hs5, hs4, hs3, hs2, e1]
          · rw [hacc, g6, ht5, ht4, ht3, ht2, g1]
            simp only [List.map_append, List.sum_append]
            omega
          · rw [hn2]
            simp only [hlk, true_and]
            omega
          · intro hfalse
            rw [hfalse] at hlk
            exact absurd hlk (by decide)

theorem mem_map_fst_of_keys {t : List (String × Nat)} {k q : String}
    (hk : ∀ x ∈ t, x.1 = k) (hq : q ∈ t.map Prod.fst) : q = k := by
  rcases List.mem_map.mp hq with ⟨x, hx, hfx⟩
  rw [← hfx]
  exact hk x hx

theorem mem_map_fst_of_ne_nil {t : List (String × Nat)} {k : String}
    (hk : ∀ x ∈ t, x.1 = k) (hne : t ≠ []) : k ∈ t.map Prod.fst := by
  cases t with
  | nil => exact absurd rfl hne
  | cons x xs =>
    rw [← hk x (by simp)]
    exact List.mem_map_of_mem _ (by simp)

/-! ## Claims -/

/-- C1: for every run of clean(days_threshold, dry_run=false) in which
prerequisites pass and discovery returns a list of items, the returned
success flag equals (successCount > 0) OR (totalItems == 0), where
successCount counts exactly the items whose clean_item call returned True
(failures and raised exceptions are not counted). -/
theorem claim_C1 {Item : Type} (p : Provider Item) (items : List Item)
    (hpre : p.check_prerequisites = .ok true)
    (hfind : p.find_cleanable_items = .ok items) :
    ((Cleaner.clean p false).1 = true ↔
      0 < items.countP (fun it => decide (p.clean_item it false = Except.ok true))
        ∨ items.length = 0) := by
  have hc := successCount_eq_countP p items
  cases items with
  | nil => simp [Cleaner.clean, hpre, hfind]
  | cons x xs =>
    simp only [Cleaner.clean, hpre, hfind, List.isEmpty_cons, Bool.false_eq_true,
      if_false, if_neg]
    simp [hc]

/-- Witness for C1: with items [1, 2, 3] where cleaning items 1 and 3
succeeds and item 2 raises, the run is a success; with items [1, 2] where
item 1 fails and item 2 raises, the run is a failure. -/
theorem claim_C1_witness :
    (Cleaner.clean exProviderTwoOk false).1 = true ∧
    (Cleaner.clean exProviderAllFail false).1 = false := by
  constructor
  · exact (claim_C1 exProviderTwoOk [1, 2, 3] rfl rfl).mpr (by decide)
  · have h := claim_C1 exProviderAllFail [1, 2] rfl rfl
    cases hb : (Cleaner.clean exProviderAllFail false).1 with
    | false => rfl
    | true => exact absurd (h.mp hb) (by decide)

/-- C2 counterexample: the claim says the orchestrator calls
clean_item(item, dry_run=true) on every discovered item during a dry run.
For the provider that discovered item 7, the dry run returns success but
its trace contains no clean_item call on 7 at all. -/
theorem claim_C2_counterexample :
    exProviderRaisingItem.find_cleanable_items = .ok [7] ∧
    (Cleaner.clean exProviderRaisingItem true).1 = true ∧
    CleanEvent.itemCall 7 true ∉ (Cleaner.clean exProviderRaisingItem true).2 ∧
    CleanEvent.itemCall 7 false ∉ (Cleaner.clean exProviderRaisingItem true).2 := by
  refine ⟨rfl, rfl, ?_, ?_⟩ <;> decide

/-- C2 (amended): with dry_run=true and a non-empty discovered item list,
the orchestrator never calls clean_item; it logs every discovered item as
would-clean, returns a success summary and performs no deletion side
effects. -/
theorem claim_C2_amended {Item : Type} (p : Provider Item) (items : List Item)
    (hpre : p.check_prerequisites = .ok true)
    (hfind : p.find_cleanable_items = .ok items)
    (hne : items ≠ []) :
    (Cleaner.clean p true).1 = true ∧
    (Cleaner.clean p true).2 =
      [CleanEvent.prereqCheck, CleanEvent.discovery] ++ items.map CleanEvent.logWouldClean := by
  have hemp : items.isEmpty = false := by
    cases items with
    | nil => exact absurd rfl hne
    | cons x xs => rfl
  constructor <;> simp [Cleaner.clean, hpre, hfind, hemp]

/-- Witness for the amended C2 at the provider that discovered item 7. -/
theorem claim_C2_witness :
    (Cleaner.clean exProviderRaisingItem true).1 = true ∧
    (Cleaner.clean exProviderRaisingItem true).2 =
      [CleanEvent.prereqCheck, CleanEvent.discovery] ++
        [7].map CleanEvent.logWouldClean :=
  claim_C2_amended exProviderRaisingItem [7] rfl rfl (by decide)

/-- C3: a Kubernetes item whose namespace is protected or whose name
starts with a protected prefix is never cleaned: clean_item returns False
and issues no delete command, for any kubectl behaviour and any dry_run
flag. -/
theorem claim_C3 (kubectl : String → Option String) (item : K8sItem) (d : Bool)
    (h : item.ns ∈ protected_namespaces ∨
      ∃ pre ∈ protected_prefixes, startswith item.name pre) :
    k8sCleanItem kubectl item d = (false, []) := by
  by_cases hns : item.ns ∈ protected_namespaces
  · simp [k8sCleanItem, hns]
  · rcases h with h | h
    · exact absurd h hns
    · have hany : protected_prefixes.any (fun pre => startswith item.name pre) = true := by
        rcases h with ⟨pre, hmem, hpre⟩
        exact List.any_eq_true.mpr ⟨pre, hmem, hpre⟩
      simp [k8sCleanItem, hns, hany]

/-- Witness for C3: a pod in the protected kube-system namespace and a
secret whose name carries the protected kube- prefix, under a kubectl
that would report success, both with dry_run=false. -/
theorem claim_C3_witness :
    k8sCleanItem (fun _ => some ("deleted")) ⟨"pod", "kube-system", "web"⟩ false
      = (false, []) ∧
    k8sCleanItem (fun _ => some ("deleted")) ⟨"secret", "apps", "kube-root-cert"⟩ false
      = (false, []) := by
  constructor
  · exact claim_C3 _ _ _ (Or.inl (by decide))
  · exact claim_C3 _ _ _ (Or.inr ⟨"kube-", by decide, by decide⟩)

/-- C4: whenever check_prerequisites returns False or raises, clean
returns failure immediately and find_cleanable_items is never called. -/
theorem claim_C4 {Item : Type} (p : Provider Item) (d : Bool)
    (h : p.check_prerequisites = .error () ∨ p.check_prerequisites = .ok false) :
    (Cleaner.clean p d).1 = false ∧
      CleanEvent.discovery ∉ (Cleaner.clean p d).2 := by
  rcases h with h | h <;> constructor <;> simp [Cleaner.clean, h]

/-- Witness for C4 at a provider whose prerequisite check returns
False. -/
theorem claim_C4_witness :
    (Cleaner.clean exProviderNoPrereq true).1 = false ∧
      CleanEvent.discovery ∉ (Cleaner.clean exProviderNoPrereq true).2 :=
  claim_C4 exProviderNoPrereq true (Or.inr rfl)

/-- C5: after prerequisites pass, a raising discovery is converted into a
failure result with no per-item processing (no clean_item call appears in
the trace), and an empty discovery yields success. -/
theorem claim_C5 {Item : Type} (p : Provider Item) (d : Bool)
    (hpre : p.check_prerequisites = .ok true) :
    (p.find_cleanable_items = .error () →
      (Cleaner.clean p d).1 = false ∧
        ∀ (it : Item) (dr : Bool), CleanEvent.itemCall it dr ∉ (Cleaner.clean p d).2) ∧
    (p.find_cleanable_items = .ok [] → (Cleaner.clean p d).1 = true) := by
  constructor
  · intro hf
    constructor
    · simp [Cleaner.clean, hpre, hf]
    · intro it dr
      simp [Cleaner.clean, hpre, hf]
  · intro hf
    simp [Cleaner.clean, hpre, hf]

/-- Witness for C5: one provider whose discovery raises (failure, no item
call recorded, shown at item 7) and one whose discovery is empty
(success). -/
theorem claim_C5_witness :
    (Cleaner.clean exProviderRaisingFind false).1 = false ∧
    CleanEvent.itemCall 7 false ∉ (Cleaner.clean exProviderRaisingFind false).2 ∧
    (Cleaner.clean exProviderEmptyFind false).1 = true := by
  refine ⟨?_, ?_, ?_⟩
  · exact ((claim_C5 exProviderRaisingFind false rfl).1 rfl).1
  · exact ((claim_C5 exProviderRaisingFind false rfl).1 rfl).2 7 false
  · exact (claim_C5 exProviderEmptyFind false rfl).2 rfl

/-- C6 counterexample: the claim says a category of size 0 is omitted
from the sizes mapping.  For a bundle of 5 bytes whose Application
Support directory exists but is empty, the report records the support
category with size 0. -/
theorem claim_C6_counterexample :
    (supportKey, 0) ∈ (analyzeSingleApp exProbesSupportZero).sizes ∧
    (analyzeSingleApp exProbesSupportZero).total_size = 5 := by
  constructor <;> decide

/-- C6 (amended): total_size always equals the sum of the category sizes
actually recorded; percentages are present exactly when total_size > 0;
a category whose probed locations are all absent is omitted, not
zero-filled, but omission does not track size: support is recorded
whenever one of its locations exists, even at size 0, while cache is
recorded exactly when the Caches-directory listing succeeds and the
accumulated cache size is positive; and a finder that raises aborts the
remaining finders, so when the Caches-directory listing raises the report
keeps at most the app and support categories, dropping every later
category regardless of its accumulated size. -/
theorem claim_C6_amended (p : AppProbes) :
    (analyzeSingleApp p).total_size = ((analyzeSingleApp p).sizes.map Prod.snd).sum ∧
    ((analyzeSingleApp p).percentages.isSome ↔ 0 < (analyzeSingleApp p).total_size) ∧
    (supportKey ∈ (analyzeSingleApp p).sizes.map Prod.fst ↔
      (p.support.isSome ∨ p.altSupport.isSome)) ∧
    (cacheKey ∈ (analyzeSingleApp p).sizes.map Prod.fst ↔
      (p.cachesListOk = true ∧ 0 < cacheTotal p.cache p.altCache p.cacheExtra)) ∧
    (p.cachesListOk = false →
      ∀ k ∈ (analyzeSingleApp p).sizes.map Prod.fst, k = appKey ∨ k = supportKey) := by
  obtain ⟨t1, t2, t3, t4, t5, t6, hs, ht, k1, n1, k2, n2, k3, k4, k5, k6, habort⟩ :=
    accumulate_struct p
  have hsizes : (analyzeSingleApp p).sizes = (accumulateSizes p).sizes := rfl
  have htot : (analyzeSingleApp p).total_size = (accumulateSizes p).total_size := rfl
  have hperc : (analyzeSingleApp p).percentages =
      (if (accumulateSizes p).total_size > 0 then
        some ((accumulateSizes p).sizes.map
          (fun ks => (ks.1, pyRound1 ((ks.2 : Rat) / ((accumulateSizes p).total_size : Rat) * 100))))
      else none) := rfl
  refine ⟨?_, ?_, ?_, ?_, ?_⟩
  · rw [htot, hsizes, ht, hs]
    simp only [List.map_append, List.sum_append, List.map_cons, List.map_nil,
      List.sum_cons, List.sum_nil]
    omega
  · rw [hperc, htot]
    by_cases h : (accumulateSizes p).total_size > 0
    · simp [h]
    · simp [h]
  · rw [hsizes, hs]
    simp only [List.map_append, List.mem_append]
    constructor
    · intro hmem
      rcases hmem with ((((((h0 | h1) | h2) | h3) | h4) | h5) | h6)
      · rw [show ([(appKey, p.appBundleSize)].map Prod.fst) = [appKey] from rfl] at h0
        exact absurd (List.mem_singleton.mp h0) (by decide)
      · have hne : t1 ≠ [] := by
          intro hnil
          rw [hnil] at h1
          simp at h1
        have hno := n1.not.mp (by simpa using hne)
        rcases hp : p.support with _ | v
        · rcases hq : p.altSupport with _ | w
          · exact absurd ⟨hp, hq⟩ hno
          · exact Or.inr rfl
        · exact Or.inl rfl
      · exact absurd (mem_map_fst_of_keys k2 h2) (by decide)
      · exact absurd (mem_map_fst_of_keys k3 h3) (by decide)
      · rcases List.mem_map.mp h4 with ⟨x, hx, hfx⟩
        rcases k4 x hx with hk | hk
        · rw [hk] at hfx
          exact absurd hfx (by decide)
        · rw [hk] at hfx
          exact absurd hfx (by decide)
      · exact absurd (mem_map_fst_of_keys k5 h5) (by decide)
      · exact absurd (mem_map_fst_of_keys k6 h6) (by decide)
    · intro hopt
      have hne : t1 ≠ [] := by
        intro hnil
        rcases n1.mp hnil with ⟨ha, hb⟩
        rcases hopt with h | h
        · rw [ha] at h; simp at h
        · rw [hb] at h; simp at h
      exact Or.inl (Or.inl (Or.inl (Or.inl (Or.inl (Or.inr
        (mem_map_fst_of_ne_nil k1 hne))))))
  · rw [hsizes, hs]
    simp only [List.map_append, List.mem_append]
    constructor
    · intro hmem
      rcases hmem with ((((((h0 | h1) | h2) | h3) | h4) | h5) | h6)
      · rw [show ([(appKey, p.appBundleSize)].map Prod.fst) = [appKey] from rfl] at h0
        exact absurd (List.mem_singleton.mp h0) (by decide)
      · exact absurd (mem_map_fst_of_keys k1 h1) (by decide)
      · have hne : t2 ≠ [] := by
          intro hnil
          rw [hnil] at h2
          simp at h2
        exact not_not.mp (n2.not.mp hne)
      · exact absurd (mem_map_fst_of_keys k3 h3) (by decide)
      · rcases List.mem_map.mp h4 with ⟨x, hx, hfx⟩
        rcases k4 x hx with hk | hk
        · rw [hk] at hfx
          exact absurd hfx (by decide)
        · rw [hk] at hfx
          exact absurd hfx (by decide)
      · exact absurd (mem_map_fst_of_keys k5 h5) (by decide)
      · exact absurd (mem_map_fst_of_keys k6 h6) (by decide)
    · intro hpos
      have hne : t2 ≠ [] := fun hnil => (n2.mp hnil) hpos
      exact Or.inl (Or.inl (Or.inl (Or.inl (Or.inr
        (mem_map_fst_of_ne_nil k2 hne)))))
  · intro hfalse k hk
    obtain ⟨h2n, h3n, h4n, h5n, h6n⟩ := habort hfalse
    rw [hsizes, hs, h2n, h3n, h4n, h5n, h6n] at hk
    simp only [List.append_nil, List.map_append, List.mem_append] at hk
    rcases hk with hk | hk
    · left
      rw [show ([(appKey, p.appBundleSize)].map Prod.fst) = [appKey] from rfl] at hk
      exact List.mem_singleton.mp hk
    · right
      exact mem_map_fst_of_keys k1 hk

/-- Witness for the amended C6: probes whose Caches-directory listing
raises while a preference plist of 9 bytes was found; the preferences
category is nevertheless dropped from the report. -/
theorem claim_C6_witness :
    exProbesCacheAbort.cachesListOk = false ∧
    fileSum exProbesCacheAbort.prefFiles = 9 ∧
    preferencesKey ∉ (analyzeSingleApp exProbesCacheAbort).sizes.map Prod.fst := by
  have h := (claim_C6_amended exProbesCacheAbort).2.2.2.2 rfl
  refine ⟨rfl, rfl, fun hmem => ?_⟩
  rcases h preferencesKey hmem with hk | hk
  · exact absurd hk (by decide)
  · exact absurd hk (by decide)

/-- C7 counterexample: the claim says the size scanner returns 0 when the
stat fails (permission error or race) and never raises.  For a path whose
check-time stat succeeds (os.path.isfile is True) but whose getsize then
fails — the race the claim names — get_size propagates the exception
instead of returning 0. -/
theorem claim_C7_counterexample :
    osIsfile (FSNode.file 5 true false) = true ∧
    get_size (FSNode.file 5 true false) = Except.error () := by
  constructor <;> rfl

/-- C7 (amended): _get_directory_size satisfies the claim in full on
every input — a file yields its byte length, or 0 when either its
check-time stat or its getsize fails; a directory yields the recursive
sum over reachable files where unlistable subtrees contribute 0 and
per-entry getsize failures contribute 0; it never raises.  get_size
satisfies the same description only on race-free inputs (every file whose
check-time stat succeeds also has a succeeding getsize): there it never
raises and returns the spec size; a getsize failure after a successful
isfile/exists check propagates instead (see the counterexample). -/
theorem claim_C7_amended :
    (∀ o : Option FSNode, getDirectorySize o = anaSpec o) ∧
    (∀ n : FSNode, raceFree n = true → get_size n = Except.ok (sizeSpec n)) :=
  ⟨getDirectorySize_eq, get_size_raceFree⟩

/-- Witness for the amended C7 at a race-free directory holding one
stat-able file of 3 bytes and one file whose stat fails at both points
(contributing 0). -/
theorem claim_C7_witness :
    raceFree exDirRaceFree = true ∧
    get_size exDirRaceFree = Except.ok 3 := by
  have hrf : raceFree exDirRaceFree = true := by
    simp [exDirRaceFree, raceFree, raceFreeList]
  have h := claim_C7_amended.2 exDirRaceFree hrf
  refine ⟨hrf, ?_⟩
  rw [h]
  simp [exDirRaceFree, sizeSpec, sizeSpecList]

/-- C8: is_unused is True exactly when the most recent of the entry's
access, modification and change times is older than now minus the
threshold in days; in particular a failing stat yields False. -/
theorem claim_C8 (st : Except Unit StatInfo) (now : Int) (days_threshold : Nat) :
    is_unused st now days_threshold = true ↔
      ∃ info, st = Except.ok info ∧
        max info.st_atime (max info.st_mtime info.st_ctime) <
          now - (days_threshold : Int) * 86400 := by
  cases st with
  | error e => simp [is_unused]
  | ok info => simp [is_unused]

/-- C9: for a listable directory whose children are all regular files on
which no stat error occurs (check-time and getsize-time stat both
succeed), get_size returns the (non-negative) sum over the children of
their own get_size values. -/
theorem claim_C9 (cs : List FSNode)
    (hfiles : ∀ c ∈ cs, ∃ s, c = FSNode.file s true true) :
    get_size (FSNode.dir true cs) =
      Except.ok ((cs.map (fun c => (get_size c).toOption.getD 0)).sum) := by
  have hrf : ∀ (l : List FSNode), (∀ c ∈ l, ∃ s, c = FSNode.file s true true) →
      raceFreeList l = true := by
    intro l
    induction l with
    | nil => intro _; rfl
    | cons c rest ih =>
      intro hl
      rw [raceFreeList, Bool.and_eq_true]
      obtain ⟨s, hc⟩ := hl c (List.mem_cons_self c rest)
      refine ⟨?_, ih (fun x hx => hl x (List.mem_cons_of_mem c hx))⟩
      rw [hc, raceFree]
      rfl
  have hsum : ∀ (l : List FSNode), (∀ c ∈ l, ∃ s, c = FSNode.file s true true) →
      sizeSpecList l = (l.map (fun c => (get_size c).toOption.getD 0)).sum := by
    intro l
    induction l with
    | nil => intro _; rfl
    | cons c rest ih =>
      intro hl
      obtain ⟨s, hc⟩ := hl c (List.mem_cons_self c rest)
      subst hc
      rw [sizeSpecList, List.map_cons, List.sum_cons,
        ih (fun x hx => hl x (List.mem_cons_of_mem _ hx))]
      congr 1
  have h1 : raceFree (FSNode.dir true cs) = true := by
    rw [raceFree]
    exact hrf cs hfiles
  rw [get_size_raceFree _ h1]
  congr 1
  rw [show sizeSpec (FSNode.dir true cs) = sizeSpecList cs from by rw [sizeSpec]]
  exact hsum cs hfiles

/-- Witness for C9 at a directory of two fully stat-able files of 3 and 5
bytes. -/
theorem claim_C9_witness :
    get_size (FSNode.dir true [FSNode.file 3 true true, FSNode.file 5 true true]) =
      Except.ok (([FSNode.file 3 true true, FSNode.file 5 true true].map
        (fun c => (get_size c).toOption.getD 0)).sum) :=
  claim_C9 [FSNode.file 3 true true, FSNode.file 5 true true]
    (by
      intro c hc
      rcases List.mem_cons.mp hc with h | h
      · exact ⟨3, h⟩
      · rcases List.mem_cons.mp h with h | h
        · exact ⟨5, h⟩
        · exact absurd h (List.not_mem_nil c))

/-- C10: for an unprotected Kubernetes item, dry-run clean_item returns
True regardless of the type field, while a real run on a type outside
pod/replicaset/configmap/secret returns False without issuing any delete
command. -/
theorem claim_C10 (kubectl : String → Option String) (item : K8sItem)
    (hns : item.ns ∉ protected_namespaces)
    (hname : ∀ pre ∈ protected_prefixes, ¬ startswith item.name pre) :
    k8sCleanItem kubectl item true = (true, []) ∧
    (item.type ∉ (["pod", "replicaset", "configmap", "secret"] : List String) →
      k8sCleanItem kubectl item false = (false, [])) := by
  have hany : protected_prefixes.any (fun pre => startswith item.name pre) = false := by
    rw [List.any_eq_false]
    intro pre hmem
    exact hname pre hmem
  constructor
  · simp [k8sCleanItem, hns, hany]
  · intro htype
    simp only [List.mem_cons, List.not_mem_nil, or_false, not_or] at htype
    obtain ⟨h1, h2, h3, h4⟩ := htype
    have hdc : deleteCommand item = none := by
      simp [deleteCommand, h1, h2, h3, h4]
    simp [k8sCleanItem, hns, hany, hdc]

/-- Witness for C10 at an unprotected item of the unknown type
deployment. -/
theorem claim_C10_witness :
    k8sCleanItem (fun _ => some ("ok")) ⟨"deployment", "apps", "web"⟩ true
      = (true, []) ∧
    k8sCleanItem (fun _ => some ("ok")) ⟨"deployment", "apps", "web"⟩ false
      = (false, []) := by
  have h := claim_C10 (fun _ => some ("ok")) ⟨"deployment", "apps", "web"⟩
    (by decide) (by decide)
  exact ⟨h.1, h.2 (by decide)⟩

end MacCleaner
